import Mathlib

/-!
Shallow embedding of the TON Connect signer-abstraction and connection-session
core of this repository (packages/uikit/src/state/mnemonic.ts and
packages/uikit/src/state/tonConnect.ts), with theorems settling the spec's
claims about it.

Storage is modelled as a map from wallet id to its ordered connection list.
The notification-paired request/response channel is modelled operationally:
a waiter holds the request id, a subscribed flag for its one-shot listener,
and the promise outcome; response-topic events are folded over waiters
exactly as the emitter delivers them.
-/

/-- One authorized dApp pairing persisted for a wallet
(the AccountConnection record used by connectionService). -/
structure AccountConnection where
  clientSessionId : String
  webViewUrl : String
deriving DecidableEq, Repr

/-- Per-wallet persisted connection lists, keyed by wallet id: the storage view
exposed by getTonWalletConnections / setAccountConnection. -/
abbrev ConnStorage := String → List AccountConnection

/-- getTonWalletConnections storage wallet: read the wallet's stored connections. -/
def getTonWalletConnections (storage : ConnStorage) (wallet : String) :
    List AccountConnection :=
  storage wallet

/-- setAccountConnection storage wallet connections: replace the wallet's stored
connection list. -/
def setAccountConnection (storage : ConnStorage) (wallet : String)
    (connections : List AccountConnection) : ConnStorage :=
  fun w => if w = wallet then connections else storage w

/-- The connection argument of disconnectFromWallet: a specific connection, or
the literal 'all'. -/
inductive ConnParam where
  | all
  | one (c : AccountConnection)
deriving DecidableEq, Repr

/-- disconnectFromWallet (tonConnect.ts): read the wallet's connections, choose
the connections to disconnect (all of them, or the single given one), replace
the stored list ([] for 'all', otherwise keep the entries whose clientSessionId
differs from every targeted one), write it back, and return the targeted
connections.  Result: (updated storage, returned removal list). -/
def disconnectFromWallet (storage : ConnStorage) (connection : ConnParam)
    (wallet : String) : ConnStorage × List AccountConnection :=
  let connections := getTonWalletConnections storage wallet
  let connectionsToDisconnect : List AccountConnection :=
    match connection with
    | .all => connections
    | .one c => [c]
  let retained : List AccountConnection :=
    match connection with
    | .all => []
    | .one _ =>
        connections.filter fun item =>
          connectionsToDisconnect.all fun c => c.clientSessionId != item.clientSessionId
  (setAccountConnection storage wallet retained, connectionsToDisconnect)

/-- C2: disconnect(wallet, 'all') replaces the wallet's persisted connection set
with the empty sequence and returns the full prior connection set. -/
theorem disconnect_all_empties_and_returns_prior (storage : ConnStorage)
    (wallet : String) :
    (disconnectFromWallet storage .all wallet).1 wallet = [] ∧
    (disconnectFromWallet storage .all wallet).2 =
      getTonWalletConnections storage wallet := by
  refine ⟨?_, rfl⟩
  simp [disconnectFromWallet, setAccountConnection]

/-- C3: disconnect(wallet, connection) stores back exactly the entries whose
clientSessionId differs from the target's; the retained list is a sublist of
the prior one (original relative order, entries unchanged), every non-matching
entry is kept, and every kept entry is a prior non-matching entry. -/
theorem disconnect_one_removes_only_matching (storage : ConnStorage)
    (wallet : String) (c : AccountConnection) :
    (disconnectFromWallet storage (.one c) wallet).1 wallet =
      (storage wallet).filter
        (fun item => c.clientSessionId != item.clientSessionId) ∧
    ((disconnectFromWallet storage (.one c) wallet).1 wallet).Sublist
      (storage wallet) ∧
    (∀ item ∈ storage wallet, item.clientSessionId ≠ c.clientSessionId →
      item ∈ (disconnectFromWallet storage (.one c) wallet).1 wallet) ∧
    (∀ item ∈ (disconnectFromWallet storage (.one c) wallet).1 wallet,
      item ∈ storage wallet ∧ item.clientSessionId ≠ c.clientSessionId) := by
  have hmain :
      (disconnectFromWallet storage (.one c) wallet).1 wallet =
        (storage wallet).filter
          (fun item => c.clientSessionId != item.clientSessionId) := by
    simp [disconnectFromWallet, setAccountConnection, getTonWalletConnections]
  refine ⟨hmain, ?_, ?_, ?_⟩
  · rw [hmain]; exact List.filter_sublist _
  · intro item hmem hne
    rw [hmain]
    simp only [List.mem_filter, bne_iff_ne, ne_eq]
    exact ⟨hmem, fun h => hne h.symm⟩
  · intro item hmem
    rw [hmain] at hmem
    simp only [List.mem_filter, bne_iff_ne, ne_eq] at hmem
    exact ⟨hmem.1, fun h => hmem.2 h.symm⟩

/-- C3 witness: concrete scenario from the spec — connections [a, b], disconnect
a, stored set becomes [b]. -/
theorem disconnect_one_removes_only_matching_witness :
    (disconnectFromWallet
        (fun w => if w = "W" then
          [AccountConnection.mk "a" "ua", AccountConnection.mk "b" "ub"] else [])
        (.one (AccountConnection.mk "a" "ua")) "W").1 "W" =
      ((fun w => if w = "W" then
          [AccountConnection.mk "a" "ua", AccountConnection.mk "b" "ub"] else [])
        "W").filter
        (fun item => (AccountConnection.mk "a" "ua").clientSessionId
          != item.clientSessionId) ∧
    (AccountConnection.mk "b" "ub") ∈
      (disconnectFromWallet
        (fun w => if w = "W" then
          [AccountConnection.mk "a" "ua", AccountConnection.mk "b" "ub"] else [])
        (.one (AccountConnection.mk "a" "ua")) "W").1 "W" := by
  have h := disconnect_one_removes_only_matching
    (fun w => if w = "W" then
      [AccountConnection.mk "a" "ua", AccountConnection.mk "b" "ub"] else [])
    "W" (AccountConnection.mk "a" "ua")
  exact ⟨h.1, h.2.2.1 (AccountConnection.mk "b" "ub") (by simp) (by decide)⟩

/-- C9: disconnect(wallet, 'all') twice in sequence: the set is empty after each
call and the second call returns an empty removal list. -/
theorem disconnect_all_idempotent (storage : ConnStorage) (wallet : String) :
    (disconnectFromWallet storage .all wallet).1 wallet = [] ∧
    (disconnectFromWallet
        (disconnectFromWallet storage .all wallet).1 .all wallet).1 wallet = [] ∧
    (disconnectFromWallet
        (disconnectFromWallet storage .all wallet).1 .all wallet).2 = [] := by
  refine ⟨?_, ?_, ?_⟩ <;>
    simp [disconnectFromWallet, setAccountConnection, getTonWalletConnections]

/-- C10: for every wallet, storage and specific connection, disconnect returns
the singleton list holding the argument itself — the stored entries are never
consulted for the removal list; and when additionally no stored entry carries
the target's clientSessionId, the stored set written back equals the prior
stored set, so the removal list can name a connection that was never stored. -/
theorem disconnect_one_returns_argument (storage : ConnStorage) (wallet : String)
    (c : AccountConnection) :
    (disconnectFromWallet storage (.one c) wallet).2 = [c] ∧
    ((∀ item ∈ storage wallet, item.clientSessionId ≠ c.clientSessionId) →
      (disconnectFromWallet storage (.one c) wallet).1 wallet = storage wallet) := by
  refine ⟨rfl, ?_⟩
  intro h
  have hmain :
      (disconnectFromWallet storage (.one c) wallet).1 wallet =
        (storage wallet).filter
          (fun item => c.clientSessionId != item.clientSessionId) := by
    simp [disconnectFromWallet, setAccountConnection, getTonWalletConnections]
  rw [hmain]
  rw [List.filter_eq_self]
  intro a ha
  simp only [bne_iff_ne, ne_eq]
  exact fun heq => h a ha heq.symm

/-- C10 witness: wallet W stores an entry with the target's id "a" but a
different payload — the removal list is still the argument itself, not the
stored entry; and with only id b stored, disconnecting the never-stored
connection a leaves the stored set unchanged. -/
theorem disconnect_one_returns_argument_witness :
    (disconnectFromWallet
        (fun w => if w = "W" then [AccountConnection.mk "a" "stored-url"] else [])
        (.one (AccountConnection.mk "a" "ua")) "W").2 =
      [AccountConnection.mk "a" "ua"] ∧
    (disconnectFromWallet
        (fun w => if w = "W" then [AccountConnection.mk "b" "ub"] else [])
        (.one (AccountConnection.mk "a" "ua")) "W").1 "W" =
      (fun w => if w = "W" then [AccountConnection.mk "b" "ub"] else []) "W" := by
  constructor
  · exact (disconnect_one_returns_argument
      (fun w => if w = "W" then [AccountConnection.mk "a" "stored-url"] else [])
      "W" (AccountConnection.mk "a" "ua")).1
  · exact (disconnect_one_returns_argument
      (fun w => if w = "W" then [AccountConnection.mk "b" "ub"] else [])
      "W" (AccountConnection.mk "a" "ua")).2 (by decide)

/-- The params field of a response-topic bus message: a string, a plain object
payload, an Error value (also an object at JS runtime), or null. -/
inductive Params where
  | str (s : String)
  | obj (payload : String)
  | errObj (message : String)
  | nullish
deriving DecidableEq, Repr

/-- The JS test typeof params === 'string'. -/
def Params.isStr : Params → Bool
  | .str _ => true
  | _ => false

/-- The JS test params && typeof params === 'object': true for a plain object
and for an Error value, false for a string and for null. -/
def Params.isTruthyObject : Params → Bool
  | .obj _ => true
  | .errObj _ => true
  | _ => false

/-- The string carried by a string-valued params (dummy otherwise). -/
def Params.asStr : Params → String
  | .str s => s
  | _ => ""

/-- An event delivered on the 'response' topic: shape {method:'response', id?,
params}. -/
structure ResponseMsg where
  id : Option Nat
  params : Params
deriving DecidableEq, Repr

/-- The status of a pending promise created by a notification-paired request. -/
inductive Outcome where
  | pending
  | resolvedWith (p : Params)
  | rejectedWith (p : Params)
deriving DecidableEq, Repr

/-- One in-flight notification-paired request: its correlation id, whether its
one-shot listener is still subscribed on the 'response' topic, and the promise
outcome. -/
structure Waiter where
  reqId : Nat
  subscribed : Bool
  outcome : Outcome
deriving DecidableEq, Repr

/-- The waiter created by a notification-paired request: listener subscribed,
promise pending. -/
def initWaiter (i : Nat) : Waiter :=
  { reqId := i, subscribed := true, outcome := .pending }

/-- How the one-shot listener settles the promise from a matching response:
resolve when the params pass the channel's classifier, otherwise reject with the
value carried in params. -/
def settle (cl : Params → Bool) (p : Params) : Outcome :=
  if cl p then .resolvedWith p else .rejectedWith p

/-- Delivery of one response-topic event to one waiter's listener, exactly as in
the onCallback functions of mnemonic.ts: if the listener is still subscribed and
message.id === id, it unsubscribes itself and settles the promise; otherwise
nothing happens. -/
def stepWaiter (cl : Params → Bool) (w : Waiter) (m : ResponseMsg) : Waiter :=
  if w.subscribed && m.id == some w.reqId then
    { reqId := w.reqId, subscribed := false, outcome := settle cl m.params }
  else w

/-- Delivery of a whole stream of response-topic events to one waiter. -/
def runWaiter (cl : Params → Bool) (w : Waiter) (es : List ResponseMsg) : Waiter :=
  es.foldl (stepWaiter cl) w

/-- Declarative counterpart: the settled outcome determined by the first event
of the stream carrying the request id, pending when there is none. -/
def firstResponse (cl : Params → Bool) (i : Nat) : List ResponseMsg → Outcome
  | [] => .pending
  | m :: ms => if m.id = some i then settle cl m.params else firstResponse cl i ms

/-- The params of the first event of the stream carrying the request id. -/
def firstMatchingParams (i : Nat) : List ResponseMsg → Option Params
  | [] => Option.none
  | m :: ms => if m.id = some i then some m.params else firstMatchingParams i ms

theorem runWaiter_unsubscribed (cl : Params → Bool) (i : Nat) (o : Outcome)
    (es : List ResponseMsg) :
    runWaiter cl { reqId := i, subscribed := false, outcome := o } es =
      { reqId := i, subscribed := false, outcome := o } := by
  induction es with
  | nil => rfl
  | cons m ms ih => simpa [runWaiter, stepWaiter, List.foldl_cons] using ih

theorem runWaiter_outcome (cl : Params → Bool) (i : Nat) :
    ∀ es : List ResponseMsg,
      (runWaiter cl (initWaiter i) es).outcome = firstResponse cl i es := by
  intro es
  induction es with
  | nil => rfl
  | cons m ms ih =>
      simp only [runWaiter, List.foldl_cons]
      by_cases h : m.id = some i
      · have hstep : stepWaiter cl (initWaiter i) m =
            { reqId := i, subscribed := false, outcome := settle cl m.params } := by
          simp [stepWaiter, initWaiter, h]
        rw [hstep]
        have hfr := runWaiter_unsubscribed cl i (settle cl m.params) ms
        simp only [runWaiter] at hfr
        rw [hfr]
        simp [firstResponse, h]
      · have hstep : stepWaiter cl (initWaiter i) m = initWaiter i := by
          simp [stepWaiter, initWaiter, h]
        rw [hstep]
        simp only [firstResponse, if_neg h]
        simpa [runWaiter] using ih

/-- Two waiters both subscribed on the 'response' topic; the emitter hands each
event to both listeners in order. -/
def stepPair (cl1 cl2 : Params → Bool) (p : Waiter × Waiter) (m : ResponseMsg) :
    Waiter × Waiter :=
  (stepWaiter cl1 p.1 m, stepWaiter cl2 p.2 m)

/-- Delivery of a whole event stream to two concurrently outstanding waiters. -/
def runPair (cl1 cl2 : Params → Bool) (p : Waiter × Waiter)
    (es : List ResponseMsg) : Waiter × Waiter :=
  es.foldl (stepPair cl1 cl2) p

theorem runPair_eq (cl1 cl2 : Params → Bool) (w1 w2 : Waiter) :
    ∀ es : List ResponseMsg,
      runPair cl1 cl2 (w1, w2) es =
        (runWaiter cl1 w1 es, runWaiter cl2 w2 es) := by
  intro es
  induction es generalizing w1 w2 with
  | nil => rfl
  | cons m ms ih =>
      simp only [runPair, runWaiter, List.foldl_cons, stepPair]
      exact ih (stepWaiter cl1 w1 m) (stepWaiter cl2 w2 m)

theorem firstResponse_append_of_settled (cl : Params → Bool) (i : Nat)
    (es more : List ResponseMsg) (h : firstResponse cl i es ≠ .pending) :
    firstResponse cl i (es ++ more) = firstResponse cl i es := by
  induction es with
  | nil => exact absurd rfl h
  | cons m ms ih =>
      by_cases hm : m.id = some i
      · simp [firstResponse, hm]
      · simp only [firstResponse, hm, if_neg, List.cons_append] at h ⊢
        exact ih h

/-- The payload carried by an emitted bus request event. -/
inductive EmitPayload where
  | authPrompt
  | bocPayload (boc : String)
  | ledgerPayload (path : List Nat) (transaction : String)
deriving DecidableEq, Repr

/-- An observable side effect of the signer and channel code. -/
inductive Effect where
  | emitEvent (topic : String) (id : Nat) (payload : EmitPayload)
  | storeTransactionAndCreateDeepLink (publicKey : String) (boc : String)
  | navigateTo (deeplink : String)
  | delayMs (ms : Nat)
deriving DecidableEq, Repr

/-- getPasswordByNotification (mnemonic.ts): emit a getPassword request carrying
the auth state, subscribe a one-shot listener on the 'response' topic, and let
the stream of response events drive the promise.  Result: (emitted events,
promise status after the stream es). -/
def getPasswordByNotification (reqId : Nat) (es : List ResponseMsg) :
    List Effect × Outcome :=
  ([.emitEvent "getPassword" reqId .authPrompt],
   (runWaiter Params.isStr (initWaiter reqId) es).outcome)

/-- pairSignerByNotification (mnemonic.ts): emit a signer request carrying the
base64 BOC and await the matching string response. -/
def pairSignerByNotification (reqId : Nat) (boc : String)
    (es : List ResponseMsg) : List Effect × Outcome :=
  ([.emitEvent "signer" reqId (.bocPayload boc)],
   (runWaiter Params.isStr (initWaiter reqId) es).outcome)

/-- pairLedgerByNotification (mnemonic.ts): emit a ledger request carrying the
derivation path and the transaction, and await the matching response, resolving
only when its params is a truthy object. -/
def pairLedgerByNotification (reqId : Nat) (path : List Nat)
    (transaction : String) (es : List ResponseMsg) : List Effect × Outcome :=
  ([.emitEvent "ledger" reqId (.ledgerPayload path transaction)],
   (runWaiter Params.isTruthyObject (initWaiter reqId) es).outcome)

theorem firstResponse_filter_other (cl : Params → Bool) (i j : Nat) (h : i ≠ j) :
    ∀ es : List ResponseMsg,
      firstResponse cl i es =
        firstResponse cl i (es.filter fun m => m.id != some j) := by
  intro es
  induction es with
  | nil => rfl
  | cons m ms ih =>
      by_cases hm : m.id = some i
      · have hkeep : (m.id != some j) = true := by
          simp only [hm, bne_iff_ne, ne_eq, Option.some.injEq]
          exact fun hc => h hc
        simp only [List.filter_cons, hkeep, if_true]
        simp only [firstResponse, if_pos hm]
      · by_cases hj : m.id = some j
        · have hdrop : (m.id != some j) = false := by simp [hj]
          simp only [List.filter_cons, hdrop, Bool.false_eq_true, if_false]
          simp only [firstResponse, if_neg hm]
          exact ih
        · have hkeep : (m.id != some j) = true := by simp [hj]
          simp only [List.filter_cons, hkeep, if_true]
          simp only [firstResponse, if_neg hm]
          exact ih

/-- C1: with two concurrently outstanding requests on distinct ids, each
waiter's outcome is exactly the settlement of the first response event carrying
its own id (so an event carrying the other id never touches it), and once a
matching response has settled a waiter, appending any further events — matching
ones included — leaves its outcome unchanged: exactly-once delivery per id. -/
theorem channel_no_cross_resolution_exactly_once (i1 i2 : Nat) (h : i1 ≠ i2)
    (es more : List ResponseMsg) :
    (runPair Params.isStr Params.isStr (initWaiter i1, initWaiter i2) es).1.outcome =
      firstResponse Params.isStr i1 es ∧
    (runPair Params.isStr Params.isStr (initWaiter i1, initWaiter i2) es).2.outcome =
      firstResponse Params.isStr i2 es ∧
    (firstResponse Params.isStr i1 es ≠ .pending →
      (runPair Params.isStr Params.isStr (initWaiter i1, initWaiter i2)
          (es ++ more)).1.outcome =
        (runPair Params.isStr Params.isStr (initWaiter i1, initWaiter i2)
          es).1.outcome) ∧
    firstResponse Params.isStr i2 es =
      firstResponse Params.isStr i2 (es.filter fun m => m.id != some i1) := by
  have hp := runPair_eq Params.isStr Params.isStr (initWaiter i1) (initWaiter i2) es
  have hpm := runPair_eq Params.isStr Params.isStr (initWaiter i1) (initWaiter i2)
    (es ++ more)
  refine ⟨?_, ?_, ?_, ?_⟩
  · rw [hp]; exact runWaiter_outcome Params.isStr i1 es
  · rw [hp]; exact runWaiter_outcome Params.isStr i2 es
  · intro hset
    rw [hp, hpm]
    rw [runWaiter_outcome Params.isStr i1 (es ++ more),
      runWaiter_outcome Params.isStr i1 es]
    exact firstResponse_append_of_settled Params.isStr i1 es more hset
  · exact firstResponse_filter_other Params.isStr i2 i1 (fun hc => h hc.symm) es

/-- C1 witness: ids 1 and 2 outstanding; a response for id 2, then one for id 1,
then a second (ignored) response for id 1. -/
theorem channel_no_cross_resolution_exactly_once_witness :
    (runPair Params.isStr Params.isStr (initWaiter 1, initWaiter 2)
        [ResponseMsg.mk (some 2) (.errObj "cancel"),
         ResponseMsg.mk (some 1) (.str "pw")]).1.outcome =
      firstResponse Params.isStr 1
        [ResponseMsg.mk (some 2) (.errObj "cancel"),
         ResponseMsg.mk (some 1) (.str "pw")] ∧
    (runPair Params.isStr Params.isStr (initWaiter 1, initWaiter 2)
        ([ResponseMsg.mk (some 2) (.errObj "cancel"),
          ResponseMsg.mk (some 1) (.str "pw")] ++
         [ResponseMsg.mk (some 1) (.str "late")])).1.outcome =
      (runPair Params.isStr Params.isStr (initWaiter 1, initWaiter 2)
        [ResponseMsg.mk (some 2) (.errObj "cancel"),
         ResponseMsg.mk (some 1) (.str "pw")]).1.outcome := by
  have h := channel_no_cross_resolution_exactly_once 1 2 (by decide)
    [ResponseMsg.mk (some 2) (.errObj "cancel"),
     ResponseMsg.mk (some 1) (.str "pw")]
    [ResponseMsg.mk (some 1) (.str "late")]
  exact ⟨h.1, h.2.2.1 (by decide)⟩

/-- The wallet's configured auth method (AuthState.kind). -/
inductive AuthKind where
  | nothing
  | password
  | keychain
  | signerQR
  | signerDeeplink
  | ledger
deriving DecidableEq, Repr

/-- A failure of getMnemonic. authRejected carries the rejection value
propagated from the password channel (the spec's AuthRejected); keychainUndefined
models Error('Keychain is undefined'); unexpectedAuthMethod models the default
branch's Error('Unexpected auth method'), the spec's UnsupportedAuthMethod for
the signer and signer-deeplink kinds. -/
inductive MnemonicError where
  | authRejected (p : Params)
  | keychainUndefined
  | unexpectedAuthMethod
deriving DecidableEq, Repr

/-- getMnemonic (mnemonic.ts).  fetchMnemonic models getWalletMnemonic
storage publicKey applied to its password argument (the literal kind string
for 'none'); keychainGet models the optional sdk.keychain collaborator.  The
overall promise is still pending (Option.none) while the password prompt is
unanswered. -/
def getMnemonic (fetchMnemonic : String → List String)
    (keychainGet : Option (String → String)) (auth : AuthKind)
    (publicKey : String) (reqId : Nat) (es : List ResponseMsg) :
    Option (Except MnemonicError (List String)) :=
  match auth with
  | .nothing => some (.ok (fetchMnemonic "none"))
  | .password =>
      match (getPasswordByNotification reqId es).2 with
      | .pending => Option.none
      | .resolvedWith p => some (.ok (fetchMnemonic p.asStr))
      | .rejectedWith p => some (.error (.authRejected p))
  | .keychain =>
      match keychainGet with
      | Option.none => some (.error .keychainUndefined)
      | Option.some g => some (.ok ((g publicKey).splitOn " "))
  | _ => some (.error .unexpectedAuthMethod)

/-- C5: with auth kind 'password', when the first response event carrying the
request id rejects (its params is not a string), getMnemonic propagates exactly
that rejection value and never yields a secret. -/
theorem password_rejection_propagates (fetchMnemonic : String → List String)
    (keychainGet : Option (String → String)) (publicKey : String) (reqId : Nat)
    (es : List ResponseMsg) (p : Params)
    (h : firstResponse Params.isStr reqId es = .rejectedWith p) :
    getMnemonic fetchMnemonic keychainGet .password publicKey reqId es =
      some (.error (.authRejected p)) ∧
    ∀ words : List String,
      getMnemonic fetchMnemonic keychainGet .password publicKey reqId es ≠
        some (.ok words) := by
  have hout : (getPasswordByNotification reqId es).2 = .rejectedWith p := by
    show (runWaiter Params.isStr (initWaiter reqId) es).outcome = .rejectedWith p
    rw [runWaiter_outcome Params.isStr reqId es]
    exact h
  constructor
  · simp [getMnemonic, hout]
  · intro words
    simp [getMnemonic, hout]

/-- C5 witness: request id 7, single response event carrying id 7 with an Error
params rejects the prompt; getMnemonic yields the propagated rejection. -/
theorem password_rejection_propagates_witness :
    getMnemonic (fun _ => ["word"]) Option.none .password "pk" 7
        [ResponseMsg.mk (some 7) (.errObj "user cancelled")] =
      some (.error (.authRejected (.errObj "user cancelled"))) ∧
    ∀ words : List String,
      getMnemonic (fun _ => ["word"]) Option.none .password "pk" 7
          [ResponseMsg.mk (some 7) (.errObj "user cancelled")] ≠
        some (.ok words) :=
  password_rejection_propagates (fun _ => ["word"]) Option.none "pk" 7
    [ResponseMsg.mk (some 7) (.errObj "user cancelled")]
    (.errObj "user cancelled") (by decide)

/-- C6: with auth kind 'signer' or 'signer-deeplink', getMnemonic falls into the
default branch: it fails with the unexpected-auth-method error (the spec's
UnsupportedAuthMethod for these kinds) and never returns a secret. -/
theorem signer_kinds_never_expose_secret (fetchMnemonic : String → List String)
    (keychainGet : Option (String → String)) (publicKey : String) (reqId : Nat)
    (es : List ResponseMsg) :
    getMnemonic fetchMnemonic keychainGet .signerQR publicKey reqId es =
      some (.error .unexpectedAuthMethod) ∧
    getMnemonic fetchMnemonic keychainGet .signerDeeplink publicKey reqId es =
      some (.error .unexpectedAuthMethod) ∧
    (∀ words : List String,
      getMnemonic fetchMnemonic keychainGet .signerQR publicKey reqId es ≠
        some (.ok words)) ∧
    (∀ words : List String,
      getMnemonic fetchMnemonic keychainGet .signerDeeplink publicKey reqId es ≠
        some (.ok words)) := by
  refine ⟨rfl, rfl, ?_, ?_⟩ <;> intro words <;> simp [getMnemonic]

/-- The capability tag attached to the callable returned by getSigner. -/
inductive SignerTag where
  | cell
  | ledger
deriving DecidableEq, Repr

/-- The Signer value returned by getSigner, reduced to its fixed capability
tag; the per-backend callback bodies are modelled separately below. -/
structure SignerModel where
  tag : SignerTag
deriving DecidableEq, Repr

/-- getSigner (mnemonic.ts): the dispatch on the resolved auth kind fixes the
returned callback's type tag — 'ledger' for the ledger kind, 'cell' for every
other kind. -/
def getSigner (auth : AuthKind) : SignerModel :=
  match auth with
  | .ledger => { tag := .ledger }
  | _ => { tag := .cell }

/-- The error signals a signer callback can fail with; navigatedAway models
Error('Navigate to deeplink'), the spec's NavigatedAway control signal. -/
inductive SignerError where
  | navigatedAway
deriving DecidableEq, Repr

/-- The signer-deeplink branch callback of getSigner: store the pending
transaction and build the deep link (makeDeepLink models the deeplink returned
by storeTransactionAndCreateDeepLink), navigate to it, wait 2000 ms, then throw
Navigate-to-deeplink.  The branch registers no response listener, so the event
stream es cannot influence it; the result is (effects, thrown signal). -/
def signerDeeplinkCallback (makeDeepLink : String → String → String)
    (publicKey : String) (boc : String) (es : List ResponseMsg) :
    List Effect × Except SignerError Params :=
  ([.storeTransactionAndCreateDeepLink publicKey boc,
    .navigateTo (makeDeepLink publicKey boc),
    .delayMs 2000],
   .error .navigatedAway)

/-- C4: for auth kind 'signer-deeplink' the Signer is tagged 'cell'; invoking
it persists the pending transaction, navigates to the constructed deep link,
delays 2000 ms, and then rejects with the NavigatedAway signal — the same for
every response-event stream, and it never resolves with a signature. -/
theorem signer_deeplink_always_navigated_away
    (makeDeepLink : String → String → String) (publicKey : String)
    (boc : String) (es : List ResponseMsg) :
    (getSigner .signerDeeplink).tag = .cell ∧
    (signerDeeplinkCallback makeDeepLink publicKey boc es).1 =
      [.storeTransactionAndCreateDeepLink publicKey boc,
       .navigateTo (makeDeepLink publicKey boc),
       .delayMs 2000] ∧
    (signerDeeplinkCallback makeDeepLink publicKey boc es).2 =
      .error .navigatedAway ∧
    (∀ es2 : List ResponseMsg,
      signerDeeplinkCallback makeDeepLink publicKey boc es2 =
        signerDeeplinkCallback makeDeepLink publicKey boc es) ∧
    ∀ p : Params,
      (signerDeeplinkCallback makeDeepLink publicKey boc es).2 ≠ .ok p := by
  refine ⟨rfl, rfl, rfl, fun es2 => rfl, fun p => ?_⟩
  simp [signerDeeplinkCallback]

theorem firstResponse_eq_matching (cl : Params → Bool) (i : Nat) :
    ∀ es : List ResponseMsg,
      firstResponse cl i es =
        match firstMatchingParams i es with
        | Option.none => .pending
        | Option.some p => settle cl p := by
  intro es
  induction es with
  | nil => rfl
  | cons m ms ih =>
      by_cases hm : m.id = some i
      · simp [firstResponse, firstMatchingParams, hm]
      · simp only [firstResponse, firstMatchingParams, if_neg hm]
        exact ih

theorem firstMatchingParams_mem (i : Nat) :
    ∀ es : List ResponseMsg, ∀ p : Params,
      firstMatchingParams i es = some p →
        ∃ m ∈ es, m.id = some i ∧ m.params = p := by
  intro es
  induction es with
  | nil => intro p hp; cases hp
  | cons m ms ih =>
      intro p hp
      by_cases hm : m.id = some i
      · simp only [firstMatchingParams, if_pos hm, Option.some.injEq] at hp
        exact ⟨m, List.mem_cons_self m ms, hm, hp⟩
      · simp only [firstMatchingParams, if_neg hm] at hp
        obtain ⟨m2, hmem, hid, hpar⟩ := ih p hp
        exact ⟨m2, List.mem_cons_of_mem m hmem, hid, hpar⟩

/-- C7: for auth kind 'ledger' the Signer is tagged 'ledger'; invoking it with
a derivation path and a transaction publishes exactly one 'ledger' event whose
payload carries the path and transaction; the outcome is the settlement of the
first response event carrying the request id; it resolves only when such an
event exists with truthy-object params, and rejects when the first matching
event's params is not a truthy object. -/
theorem ledger_signer_single_event_matching_response (reqId : Nat)
    (path : List Nat) (transaction : String) (es : List ResponseMsg) :
    (getSigner .ledger).tag = .ledger ∧
    (pairLedgerByNotification reqId path transaction es).1 =
      [.emitEvent "ledger" reqId (.ledgerPayload path transaction)] ∧
    (pairLedgerByNotification reqId path transaction es).2 =
      firstResponse Params.isTruthyObject reqId es ∧
    (∀ p : Params,
      (pairLedgerByNotification reqId path transaction es).2 = .resolvedWith p →
        p.isTruthyObject = true ∧ ∃ m ∈ es, m.id = some reqId ∧ m.params = p) ∧
    (∀ p : Params, firstMatchingParams reqId es = some p →
      p.isTruthyObject = false →
        (pairLedgerByNotification reqId path transaction es).2 =
          .rejectedWith p) := by
  have hout : (pairLedgerByNotification reqId path transaction es).2 =
      firstResponse Params.isTruthyObject reqId es :=
    runWaiter_outcome Params.isTruthyObject reqId es
  refine ⟨rfl, rfl, hout, ?_, ?_⟩
  · intro p hres
    rw [hout, firstResponse_eq_matching Params.isTruthyObject reqId es] at hres
    cases hq : firstMatchingParams reqId es with
    | none => rw [hq] at hres; cases hres
    | some q =>
        rw [hq] at hres
        simp only [settle] at hres
        by_cases hcl : Params.isTruthyObject q = true
        · rw [if_pos hcl] at hres
          injection hres with hqp
          subst hqp
          obtain ⟨m, hmem, hid, hpar⟩ := firstMatchingParams_mem reqId es q hq
          exact ⟨hcl, m, hmem, hid, hpar⟩
        · rw [if_neg hcl] at hres
          cases hres
  · intro p hq hcl
    rw [hout, firstResponse_eq_matching Params.isTruthyObject reqId es, hq]
    simp [settle, hcl]

/-- C7 witness: request id 3, path [44], one matching response with a string
params rejects; and a matching truthy-object response resolves. -/
theorem ledger_signer_single_event_matching_response_witness :
    (pairLedgerByNotification 3 [44] "tx"
        [ResponseMsg.mk (some 3) (.str "oops")]).2 =
      .rejectedWith (.str "oops") ∧
    (pairLedgerByNotification 3 [44] "tx"
        [ResponseMsg.mk (some 3) (.obj "signed")]).1 =
      [.emitEvent "ledger" 3 (.ledgerPayload [44] "tx")] := by
  constructor
  · exact (ledger_signer_single_event_matching_response 3 [44] "tx"
      [ResponseMsg.mk (some 3) (.str "oops")]).2.2.2.2 (.str "oops")
      (by decide) (by decide)
  · exact (ledger_signer_single_event_matching_response 3 [44] "tx"
      [ResponseMsg.mk (some 3) (.obj "signed")]).2.1

theorem disconnect_frame (storage : ConnStorage) (connection : ConnParam)
    (wallet w : String) (h : w ≠ wallet) :
    (disconnectFromWallet storage connection wallet).1 w = storage w := by
  simp [disconnectFromWallet, setAccountConnection, h]

theorem disconnect_local (storage storage2 : ConnStorage)
    (connection : ConnParam) (w : String) (h : storage w = storage2 w) :
    (disconnectFromWallet storage connection w).2 =
      (disconnectFromWallet storage2 connection w).2 ∧
    (disconnectFromWallet storage connection w).1 w =
      (disconnectFromWallet storage2 connection w).1 w := by
  cases connection with
  | all =>
      simp [disconnectFromWallet, setAccountConnection,
        getTonWalletConnections, h]
  | one c =>
      simp [disconnectFromWallet, setAccountConnection,
        getTonWalletConnections, h]

/-- One tracked account: whether it passes the isAccountTonWalletStandard
filter, and the ids of its TON wallets. -/
structure Account where
  isStandard : Bool
  allTonWallets : List String
deriving DecidableEq, Repr

/-- The wallets the extension branch of useDisconnectTonConnectApp fans out
over: every TON wallet of every tracked standard account. -/
def trackedStandardWallets (accounts : List Account) : List String :=
  ((accounts.filter Account.isStandard).map Account.allTonWallets).flatten

/-- The awaited fan-out of disconnectFromWallet over a wallet list, threading
storage and collecting each per-wallet removal list. -/
def disconnectWallets (connection : ConnParam) :
    ConnStorage → List String → ConnStorage × List (List AccountConnection)
  | storage, [] => (storage, [])
  | storage, w :: ws =>
      let r := disconnectFromWallet storage connection w
      let rest := disconnectWallets connection r.1 ws
      (rest.1, r.2 :: rest.2)

/-- useDisconnectTonConnectApp (tonConnect.ts): reject non-standard active
wallets; outside the extension target disconnect only the active wallet;
in the extension target fan the operation out over every wallet of every
tracked standard account and flatten the removal lists. -/
def useDisconnectTonConnectApp (targetEnv : String)
    (activeWalletStandard : Bool) (activeWallet : String)
    (accounts : List Account) (storage : ConnStorage) (connection : ConnParam) :
    Except String (ConnStorage × List AccountConnection) :=
  if !activeWalletStandard then
    .error "Only standard ton wallets can be disconnected"
  else if targetEnv != "extension" then
    .ok (disconnectFromWallet storage connection activeWallet)
  else
    let r := disconnectWallets connection storage (trackedStandardWallets accounts)
    .ok (r.1, r.2.flatten)

theorem disconnectWallets_spec (connection : ConnParam) :
    ∀ (ws : List String) (storage : ConnStorage), ws.Nodup →
      (disconnectWallets connection storage ws).2 =
        ws.map (fun w => (disconnectFromWallet storage connection w).2) ∧
      (∀ w ∈ ws, (disconnectWallets connection storage ws).1 w =
        (disconnectFromWallet storage connection w).1 w) ∧
      (∀ w, w ∉ ws →
        (disconnectWallets connection storage ws).1 w = storage w) := by
  intro ws
  induction ws with
  | nil =>
      intro storage _
      exact ⟨rfl, fun w hw => absurd hw (List.not_mem_nil w), fun w _ => rfl⟩
  | cons w ws ih =>
      intro storage hnd
      have hw_not : w ∉ ws := (List.nodup_cons.mp hnd).1
      have hnd2 : ws.Nodup := (List.nodup_cons.mp hnd).2
      obtain ⟨ih2, ih1, ih0⟩ :=
        ih (disconnectFromWallet storage connection w).1 hnd2
      have hframe : ∀ w2 ∈ ws,
          (disconnectFromWallet storage connection w).1 w2 = storage w2 := by
        intro w2 hw2
        exact disconnect_frame storage connection w w2
          (fun hc => hw_not (hc ▸ hw2))
      refine ⟨?_, ?_, ?_⟩
      · show (disconnectFromWallet storage connection w).2 ::
            (disconnectWallets connection
              (disconnectFromWallet storage connection w).1 ws).2 = _
        rw [List.map_cons, ih2]
        congr 1
        apply List.map_congr_left
        intro w2 hw2
        exact (disconnect_local (disconnectFromWallet storage connection w).1
          storage connection w2 (hframe w2 hw2)).1
      · intro w2 hw2
        rcases List.mem_cons.mp hw2 with heq | hmem
        · subst heq
          show (disconnectWallets connection
              (disconnectFromWallet storage connection w2).1 ws).1 w2 = _
          exact ih0 w2 hw_not
        · show (disconnectWallets connection
              (disconnectFromWallet storage connection w).1 ws).1 w2 = _
          rw [ih1 w2 hmem]
          exact (disconnect_local (disconnectFromWallet storage connection w).1
            storage connection w2 (hframe w2 hmem)).2
      · intro w2 hw2
        have hne : w2 ≠ w := fun hc => hw2 (hc ▸ List.mem_cons_self w ws)
        have hnin : w2 ∉ ws := fun hc => hw2 (List.mem_cons_of_mem w hc)
        show (disconnectWallets connection
            (disconnectFromWallet storage connection w).1 ws).1 w2 = _
        rw [ih0 w2 hnin]
        exact disconnect_frame storage connection w w2 hne

/-- C8: in the extension target, useDisconnectTonConnectApp succeeds with the
flattened concatenation of the removal lists that the per-wallet disconnect
yields independently (against the prior storage) for every TON wallet of every
tracked standard account; each such wallet's stored set ends as its own
per-wallet disconnect leaves it, and every other wallet's stored set is
untouched. -/
theorem extension_disconnect_fans_out (storage : ConnStorage)
    (accounts : List Account) (connection : ConnParam) (activeWallet : String)
    (hnd : (trackedStandardWallets accounts).Nodup) :
    useDisconnectTonConnectApp "extension" true activeWallet accounts storage
        connection =
      .ok ((disconnectWallets connection storage
              (trackedStandardWallets accounts)).1,
           ((trackedStandardWallets accounts).map
              (fun w => (disconnectFromWallet storage connection w).2)).flatten) ∧
    (∀ w ∈ trackedStandardWallets accounts,
      (disconnectWallets connection storage
        (trackedStandardWallets accounts)).1 w =
          (disconnectFromWallet storage connection w).1 w) ∧
    (∀ w, w ∉ trackedStandardWallets accounts →
      (disconnectWallets connection storage
        (trackedStandardWallets accounts)).1 w = storage w) := by
  obtain ⟨h2, h1, h0⟩ :=
    disconnectWallets_spec connection (trackedStandardWallets accounts)
      storage hnd
  refine ⟨?_, h1, h0⟩
  have hred : useDisconnectTonConnectApp "extension" true activeWallet accounts
      storage connection =
    .ok ((disconnectWallets connection storage
            (trackedStandardWallets accounts)).1,
         (disconnectWallets connection storage
            (trackedStandardWallets accounts)).2.flatten) := rfl
  rw [hred, h2]

/-- C8 witness: two standard wallets w1, w2 (one non-standard account ignored);
disconnect-all returns both stored connections, flattened in wallet order. -/
theorem extension_disconnect_fans_out_witness :
    useDisconnectTonConnectApp "extension" true "w0"
        [Account.mk true ["w1", "w2"], Account.mk false ["w3"]]
        (fun w => if w = "w1" then [AccountConnection.mk "s1" "u1"]
          else if w = "w2" then [AccountConnection.mk "s2" "u2"] else [])
        ConnParam.all =
      .ok ((disconnectWallets ConnParam.all
              (fun w => if w = "w1" then [AccountConnection.mk "s1" "u1"]
                else if w = "w2" then [AccountConnection.mk "s2" "u2"] else [])
              (trackedStandardWallets
                [Account.mk true ["w1", "w2"], Account.mk false ["w3"]])).1,
           [AccountConnection.mk "s1" "u1", AccountConnection.mk "s2" "u2"]) := by
  have h := (extension_disconnect_fans_out
    (fun w => if w = "w1" then [AccountConnection.mk "s1" "u1"]
      else if w = "w2" then [AccountConnection.mk "s2" "u2"] else [])
    [Account.mk true ["w1", "w2"], Account.mk false ["w3"]]
    ConnParam.all "w0" (by decide)).1
  rw [h]
  rfl

/-- C4 witness: a concrete invocation, with a response event present, still
yields the NavigatedAway rejection after persisting and navigating. -/
theorem signer_deeplink_always_navigated_away_witness :
    (signerDeeplinkCallback (fun pk boc => pk ++ boc) "pk" "boc"
        [ResponseMsg.mk (some 1) (.str "sig")]).2 = .error .navigatedAway ∧
    (signerDeeplinkCallback (fun pk boc => pk ++ boc) "pk" "boc"
        [ResponseMsg.mk (some 1) (.str "sig")]).1 =
      [.storeTransactionAndCreateDeepLink "pk" "boc",
       .navigateTo ("pk" ++ "boc"), .delayMs 2000] := by
  have h := signer_deeplink_always_navigated_away (fun pk boc => pk ++ boc)
    "pk" "boc" [ResponseMsg.mk (some 1) (.str "sig")]
  exact ⟨h.2.2.1, h.2.1⟩

/-- C6 witness: concrete getMnemonic calls for the signer and signer-deeplink
kinds fail with the unexpected-auth-method error. -/
theorem signer_kinds_never_expose_secret_witness :
    getMnemonic (fun _ => ["word"]) Option.none .signerQR "pk" 1 [] =
      some (.error .unexpectedAuthMethod) ∧
    getMnemonic (fun _ => ["word"]) Option.none .signerDeeplink "pk" 1 [] =
      some (.error .unexpectedAuthMethod) := by
  have h := signer_kinds_never_expose_secret (fun _ => ["word"]) Option.none
    "pk" 1 []
  exact ⟨h.1, h.2.1⟩
